import Mathlib

/-!
Shallow embedding of the Listen-Along relay server (src/server.js).

Machine integers and floating-point values of the JavaScript source are
modelled as rationals (ℚ); timestamps are rationals in milliseconds, as
produced by Date.now().  JS Maps become association lists keyed by String;
JS Sets of sockets become lists of sessions identified by a numeric object
identity `sid`.  JSON.stringify is modelled by an injective serializer.
-/

namespace ListenAlong

/-- One live websocket connection (`ws`): object identity `sid`, the fields
the server attaches (`ws._roomId`, `ws._clientId`, `ws._avatar`) and the
socket ready state (1 = OPEN, as tested by `client.readyState === 1`). -/
structure Session where
  sid : Nat
  roomId : Option String
  clientId : String
  readyState : Nat
  avatar : Option String
deriving Repr, DecidableEq

/-- Per-room playback state record created by `getRoomState`
(src/server.js:193-204). -/
structure PlaybackState where
  path : Option String
  playing : Bool
  position : ℚ
  positionSetAt : ℚ
  duration : Option ℚ
deriving Repr, DecidableEq

/-- Lookup in an association list, modelling `Map.prototype.get`. -/
def lookupKey {α : Type} (m : List (String × α)) (k : String) : Option α :=
  (m.find? (fun p => p.1 == k)).map (fun p => p.2)

/-- Update/insert in an association list, modelling `Map.prototype.set`. -/
def insertKey {α : Type} (m : List (String × α)) (k : String) (v : α) :
    List (String × α) :=
  if m.any (fun p => p.1 == k) then
    m.map (fun p => if p.1 == k then (k, v) else p)
  else m ++ [(k, v)]

/-- Removal from an association list, modelling `Map.prototype.delete`. -/
def eraseKey {α : Type} (m : List (String × α)) (k : String) :
    List (String × α) :=
  m.filter (fun p => p.1 != k)

/-- The two global maps of the server: `rooms : Map<roomId, Set<ws>>` and
`roomState : Map<roomId, state>`, plus `avatarCache`. -/
structure ServerState where
  rooms : List (String × List Session)
  roomState : List (String × PlaybackState)
  avatarCache : List (String × String)
deriving Repr, DecidableEq

/-- The record `getRoomState` lazily installs for an unknown room:
`path: null, playing: false, position: 0, positionSetAt: Date.now(),
duration: null` (src/server.js:194-201). -/
def defaultState (now : ℚ) : PlaybackState :=
  { path := none, playing := false, position := 0, positionSetAt := now,
    duration := none }

/-- Value returned by `getRoomState(roomId)` (src/server.js:193-204): the
stored record, or the default one freshly stamped with `now`.  The JS
function also inserts the default into the map; handlers below persist
their mutated record with `insertKey`, which subsumes that side effect. -/
def getRoomState (m : List (String × PlaybackState)) (roomId : String)
    (now : ℚ) : PlaybackState :=
  (lookupKey m roomId).getD (defaultState now)

/-- `currentPosition(state)` (src/server.js:206-210): the effective playback
position at wall-clock time `now` (milliseconds); `elapsed` is divided by
1000, so positions are in seconds. -/
def currentPosition (st : PlaybackState) (now : ℚ) : ℚ :=
  if st.playing then st.position + (now - st.positionSetAt) / 1000
  else st.position

/-- `snapshotPosition(state)` (src/server.js:212-215): collapse the effective
position into `position` and re-stamp `positionSetAt`. -/
def snapshotPosition (st : PlaybackState) (now : ℚ) : PlaybackState :=
  { st with position := currentPosition st now, positionSetAt := now }

/-- Outbound message objects before serialization (the object literals the
server passes to `JSON.stringify`).  `clientJoined` carries the optional
`avatar` field used on new-joiner bootstrap (absent / `null` otherwise). -/
inductive OutMsg where
  | serverInfo (name : Option String)
  | clientJoined (clientId : String) (avatar : Option String)
  | clientLeft (clientId : String)
  | avatarMsg (clientId : String) (data : String)
  | stateSync (path : Option String) (playing : Bool) (position : ℚ)
      (serverTime : ℚ) (by_ : String)
  | errorMsg (message : String)
deriving Repr, DecidableEq

def ratStr (q : ℚ) : String := toString q.num ++ "/" ++ toString q.den

def optStr : Option String → String
  | none => "null"
  | some s => "str:" ++ s

/-- Wire form of an outbound message, modelling `JSON.stringify(msgObj)`.
Only equality of serialized forms matters to the protocol model, so a
field-separated rendering stands in for JSON syntax. -/
def serialize : OutMsg → String
  | .serverInfo name => "server_info|" ++ optStr name
  | .clientJoined cid av => "client_joined|" ++ cid ++ "|" ++ optStr av
  | .clientLeft cid => "client_left|" ++ cid
  | .avatarMsg cid data => "avatar|" ++ cid ++ "|" ++ data
  | .stateSync path playing pos t by_ =>
      "state_sync|" ++ optStr path ++ "|" ++ toString playing ++ "|" ++
        ratStr pos ++ "|" ++ ratStr t ++ "|" ++ by_
  | .errorMsg m => "error|" ++ m

/-- One `client.send(msg)` call: the target socket's identity and the
serialized payload it was handed. -/
structure Delivery where
  target : Nat
  payload : String
deriving Repr, DecidableEq

/-- `broadcastToRoom(roomId, msgObj, exclude)` (src/server.js:219-231):
returns the `sent` counter together with the list of sends performed.
The payload is serialized once (`const msg = JSON.stringify(msgObj)`) and
that single wire form is handed to every selected client. -/
def broadcastToRoom (rooms : List (String × List Session)) (roomId : String)
    (msgObj : OutMsg) (exclude : Option Nat) : Nat × List Delivery :=
  match lookupKey rooms roomId with
  | none => (0, [])
  | some roomClients =>
    if roomClients.length == 0 then (0, [])
    else
      let msg := serialize msgObj
      let targets := roomClients.filter
        (fun c => (!(some c.sid == exclude)) && c.readyState == 1)
      (targets.length, targets.map (fun c => { target := c.sid, payload := msg }))

/-- `broadcastAll` (src/server.js:233-235): broadcast with no exclusion. -/
def broadcastAll (rooms : List (String × List Session)) (roomId : String)
    (msgObj : OutMsg) : Nat × List Delivery :=
  broadcastToRoom rooms roomId msgObj none

/-- The `state_sync` object built by `broadcastStateSync`
(src/server.js:239-246): full state plus effective position, server time
and originator. -/
def stateSyncMsg (st : PlaybackState) (now : ℚ) (triggeredBy : String) :
    OutMsg :=
  .stateSync st.path st.playing (currentPosition st now) now triggeredBy

/-- `broadcastStateSync(roomId, triggeredBy)` (src/server.js:237-247). -/
def broadcastStateSync (σ : ServerState) (roomId : String)
    (triggeredBy : String) (now : ℚ) : Nat × List Delivery :=
  broadcastAll σ.rooms roomId
    (stateSyncMsg (getRoomState σ.roomState roomId now) now triggeredBy)

/-- JS truthiness of the `state.path` field (a string or `null`): `null` and
the empty string are falsy, as tested by `if (!state.path)` and
`if (state.path)`. -/
def pathTruthy : Option String → Bool
  | none => false
  | some s => !(s == "")

/-- `cleanupClient(ws)` (src/server.js:310-325): remove the socket from its
room's set, drop the room entry if the set became empty, then broadcast
`client_left` over the (already mutated) rooms map.  Returns the new server
state and the sends the broadcast performed. -/
def cleanupClient (ws : Session) (σ : ServerState) :
    ServerState × List Delivery :=
  match ws.roomId with
  | none => (σ, [])
  | some roomId =>
    match lookupKey σ.rooms roomId with
    | none => (σ, [])
    | some roomClients =>
      let remaining := roomClients.filter (fun c => c.sid != ws.sid)
      let rooms1 :=
        if remaining.length == 0 then eraseKey σ.rooms roomId
        else insertKey σ.rooms roomId remaining
      let σ1 : ServerState := { σ with rooms := rooms1 }
      (σ1, (broadcastToRoom rooms1 roomId (.clientLeft ws.clientId) none).2)

/-- The body of the heartbeat loop (src/server.js:252-259) over the listed
entries of the rooms map: skip empty member sets (`clients.size === 0`) and
falsy paths (`!state.path`), otherwise broadcast a `state_sync` with
originator "heartbeat". -/
def heartbeatTickFrom (σ : ServerState) (now : ℚ) :
    List (String × List Session) → List (String × List Delivery)
  | [] => []
  | p :: ps =>
    if p.2.length == 0 then heartbeatTickFrom σ now ps
    else if pathTruthy (getRoomState σ.roomState p.1 now).path then
      (p.1, (broadcastStateSync σ p.1 "heartbeat" now).2) ::
        heartbeatTickFrom σ now ps
    else heartbeatTickFrom σ now ps

/-- One tick of the 5000 ms recurring timer (src/server.js:251-259):
iterate the rooms map and return the per-room broadcasts performed, in
iteration order. -/
def heartbeatTick (σ : ServerState) (now : ℚ) :
    List (String × List Delivery) :=
  heartbeatTickFrom σ now σ.rooms

/-- Does `pat` occur at the head of `l`? (list-level startsWith). -/
def headMatches : List Char → List Char → Bool
  | [], _ => true
  | _ :: _, [] => false
  | a :: as, b :: bs => a == b && headMatches as bs

/-- Does `pat` occur anywhere in `l`? -/
def occursIn (pat : List Char) : List Char → Bool
  | [] => headMatches pat []
  | c :: cs => headMatches pat (c :: cs) || occursIn pat cs

/-- `s.includes(pat)` of JavaScript: substring containment. -/
def strIncludes (s pat : String) : Bool := occursIn pat.toList s.toList

/-- Case-insensitive substring containment, the reading the specification
uses for the `playstate` href test.  Stated from the spec wording for
comparison against the source's `wantPlay` computation; not part of the
code. -/
def lowerStr (s : String) : String := String.mk (s.toList.map Char.toLower)

def includesCaseInsensitive (s pat : String) : Bool :=
  strIncludes (lowerStr s) (lowerStr pat)

/-- A JavaScript value the `playing` field can hold.  `getRoomState`
initializes `playing: false` and the `navigate` branch assigns the literal
`true`, but the `playstate` branch assigns `wantPlay = msg.href && (...)`,
which is `undefined` when `href` is absent, the empty string when `href`
is `""`, and a boolean otherwise. -/
inductive JsPlaying where
  | jbool (b : Bool)
  | jstr0
  | jundef
deriving Repr, DecidableEq

/-- JS truthiness of a `JsPlaying` value: `""` and `undefined` are falsy. -/
def jsTruthy : JsPlaying → Bool
  | .jbool b => b
  | .jstr0 => false
  | .jundef => false

/-- The `wantPlay` expression of the `playstate` branch (src/server.js:508-510):
`msg.href && (msg.href.includes("pause") || msg.href.includes("Pause"))`.
An absent `href` short-circuits to `undefined` and an empty `href` to the
string `""`; otherwise the value is the boolean substring test. -/
def wantPlayOf : Option String → JsPlaying
  | none => .jundef
  | some h =>
    if h == "" then .jstr0
    else .jbool (strIncludes h "pause" || strIncludes h "Pause")

/-- The playback record with the `playing` field at its JavaScript type,
as read and written by the `playstate` branch.  `PlaybackState` (playing
as Bool) models the records produced by `getRoomState` and `navigate`;
`toJsState` injects them. -/
structure JsPlaybackState where
  path : Option String
  playing : JsPlaying
  position : ℚ
  positionSetAt : ℚ
  duration : Option ℚ
deriving Repr, DecidableEq

def toJsState (st : PlaybackState) : JsPlaybackState :=
  { path := st.path, playing := .jbool st.playing, position := st.position,
    positionSetAt := st.positionSetAt, duration := st.duration }

/-- `currentPosition(state)` (src/server.js:206-210) over the faithful
record: `if (!state.playing)` is the truthiness test. -/
def currentPositionJs (st : JsPlaybackState) (now : ℚ) : ℚ :=
  if jsTruthy st.playing then st.position + (now - st.positionSetAt) / 1000
  else st.position

/-- `snapshotPosition(state)` (src/server.js:212-215) over the faithful
record. -/
def snapshotPositionJs (st : JsPlaybackState) (now : ℚ) : JsPlaybackState :=
  { st with position := currentPositionJs st now, positionSetAt := now }

/-- State effect of the `playstate` branch (src/server.js:507-517).  The
guard is the strict comparison `st.playing !== wantPlay`, which on these
values is inequality of `JsPlaying`: when it holds the branch snapshots
and assigns `wantPlay` — including the falsy non-booleans `""` and
`undefined`, which always differ strictly from a stored boolean.  (The
branch then broadcasts a `state_sync` either way, src/server.js:518.) -/
def handlePlaystate (st : JsPlaybackState) (href : Option String) (now : ℚ) :
    JsPlaybackState :=
  let wantPlay := wantPlayOf href
  if st.playing ≠ wantPlay then
    let st1 := snapshotPositionJs st now
    { st1 with playing := wantPlay }
  else st

/-- The `navigate` branch (src/server.js:494-504): snapshot, set `path`,
reset `position`/`positionSetAt`, force `playing`, persist the record and
broadcast a `state_sync` with `by` equal to the sender's client id.
Returns the new server state and the broadcast's sends. -/
def handleNavigate (σ : ServerState) (roomId clientId : String)
    (msgPath : Option String) (now : ℚ) : ServerState × List Delivery :=
  let st0 := getRoomState σ.roomState roomId now
  let st1 := snapshotPosition st0 now
  let st2 : PlaybackState :=
    { st1 with path := msgPath, position := 0, positionSetAt := now,
               playing := true }
  let σ1 : ServerState := { σ with roomState := insertKey σ.roomState roomId st2 }
  (σ1, (broadcastStateSync σ1 roomId clientId now).2)

/-- The playback record produced by the `navigate` branch: path set,
position and stamp reset, playing forced, `duration` carried over. -/
def navState (σ : ServerState) (roomId : String) (msgPath : Option String)
    (now : ℚ) : PlaybackState :=
  { path := msgPath, playing := true, position := 0, positionSetAt := now,
    duration := (getRoomState σ.roomState roomId now).duration }

/-- The server state after the `navigate` branch persisted its record. -/
def navServerState (σ : ServerState) (roomId : String)
    (msgPath : Option String) (now : ℚ) : ServerState :=
  { σ with roomState := insertKey σ.roomState roomId (navState σ roomId msgPath now) }

/-- A response as seen by the callback of `https.get` / `http.get`:
status code, optional `location` header and body bytes. -/
structure HttpResponse where
  statusCode : Nat
  location : Option String
  body : String
deriving Repr, DecidableEq

/-- Outcome of a fetch: resolved body, HTTP error rejection, or network
error rejection. -/
inductive FetchResult where
  | ok (body : String)
  | httpError (code : Nat)
  | netError
deriving Repr, DecidableEq

/-- `fetchUrl(url)` (src/server.js:279-301) over an abstract web
`web : url ↦ response`.  The source recurses on every 3xx response that
carries a `location` header with no depth bound; the `fuel` argument makes
that recursion well-founded in the model, and `none` (fuel exhausted at
every depth) models a fetch that never settles. -/
def fetchUrl (web : String → Option HttpResponse) :
    Nat → String → Option FetchResult
  | 0, _ => none
  | fuel + 1, url =>
    match web url with
    | none => some .netError
    | some res =>
      if 300 ≤ res.statusCode && res.statusCode < 400 && res.location.isSome
      then fetchUrl web fuel (res.location.getD "")
      else if res.statusCode != 200 then some (.httpError res.statusCode)
      else some (.ok res.body)

/-- JS string truthiness on an optional string: `null`, `undefined` and the
empty string collapse to absent. -/
def strOpt : Option String → Option String
  | none => none
  | some s => if s == "" then none else some s

/-- `Set.prototype.add` over the identity-keyed member list. -/
def addSession (l : List Session) (ws : Session) : List Session :=
  if l.any (fun c => c.sid == ws.sid) then l else l ++ [ws]

/-- The avatar resolved for an existing member on new-joiner bootstrap
(src/server.js:362-365):
`member._avatar || avatarCache.get(roomId__clientId) || null`. -/
def resolveAvatar (cache : List (String × String)) (roomId : String)
    (m : Session) : Option String :=
  match strOpt m.avatar with
  | some a => some a
  | none => strOpt (lookupKey cache (roomId ++ "__" ++ m.clientId))

/-- The write-back `if (avatarData && !member._avatar) member._avatar =
avatarData` (src/server.js:366). -/
def backfillAvatar (cache : List (String × String)) (roomId : String)
    (m : Session) : Session :=
  match strOpt m.avatar with
  | some _ => m
  | none =>
    match resolveAvatar cache roomId m with
    | some a => { m with avatar := some a }
    | none => m

/-- The insertion side effect of `getRoomState` (src/server.js:194-202). -/
def ensureRoomState (m : List (String × PlaybackState)) (roomId : String)
    (now : ℚ) : List (String × PlaybackState) :=
  if (lookupKey m roomId).isSome then m else m ++ [(roomId, defaultState now)]

/-- Result of the connection handler: rejection with a close code and
reason, or admission carrying the new session, the `client_joined`
broadcast to the rest of the room, and the messages sent to the new
client itself, in send order. -/
inductive ConnResult where
  | rejected (code : Nat) (reason : String)
  | admitted (ws : Session) (joinBroadcast : List Delivery)
      (toSender : List String)
deriving Repr, DecidableEq

/-- `wss.on("connection")` (src/server.js:335-389): admission check against
the valid-rooms list, membership registration, `client_joined` fan-out
(excluding the new socket), `server_info`, one `client_joined` per existing
member with its resolved avatar (with write-back into the member), and the
`state_sync` bootstrap when the stored path is truthy. -/
def handleConnection (σ : ServerState) (validRooms : List String)
    (serverName : Option String) (roomQ clientQ : Option String) (sid : Nat)
    (now : ℚ) : ServerState × ConnResult :=
  let clientId := (strOpt clientQ).getD ("client_" ++ ratStr now)
  match strOpt roomQ with
  | none => (σ, .rejected 4001 "Room not found")
  | some roomId =>
    if !(validRooms.contains roomId) then (σ, .rejected 4001 "Room not found")
    else
      let ws : Session :=
        { sid := sid, roomId := some roomId, clientId := clientId,
          readyState := 1, avatar := none }
      let clients1 := addSession ((lookupKey σ.rooms roomId).getD []) ws
      let roomsA := insertKey σ.rooms roomId clients1
      let joinB :=
        (broadcastToRoom roomsA roomId (.clientJoined clientId none)
          (some sid)).2
      let memberMsgs :=
        (clients1.filter (fun m => m.sid != ws.sid)).map
          (fun m =>
            serialize (.clientJoined m.clientId
              (resolveAvatar σ.avatarCache roomId m)))
      let clients2 :=
        clients1.map
          (fun m =>
            if m.sid == ws.sid then m else backfillAvatar σ.avatarCache roomId m)
      let roomsB := insertKey roomsA roomId clients2
      let st := getRoomState σ.roomState roomId now
      let boot :=
        if pathTruthy st.path then
          [serialize (.stateSync st.path st.playing (currentPosition st now)
            now "server")]
        else []
      let toSender := serialize (.serverInfo serverName) :: (memberMsgs ++ boot)
      ({ rooms := roomsB, roomState := ensureRoomState σ.roomState roomId now,
         avatarCache := σ.avatarCache },
       .admitted ws joinB toSender)

/-! Concrete example data used by counterexamples and witnesses. -/

/-- An open session "alice" in room "r". -/
def exA : Session :=
  { sid := 0, roomId := some "r", clientId := "alice", readyState := 1,
    avatar := none }

/-- An open session "bob" in room "r". -/
def exB : Session :=
  { sid := 1, roomId := some "r", clientId := "bob", readyState := 1,
    avatar := none }

/-- An open session "carol" in room "r". -/
def exC : Session :=
  { sid := 2, roomId := some "r", clientId := "carol", readyState := 1,
    avatar := none }

/-- Server state with room "r" containing alice and bob and no playback
state yet. -/
def sigAB : ServerState :=
  { rooms := [("r", [exA, exB])], roomState := [], avatarCache := [] }

/-- An empty server state. -/
def sigEmpty : ServerState :=
  { rooms := [], roomState := [], avatarCache := [] }

/-- A playback state whose path is the empty string: non-null, but falsy
for the JS tests `if (!state.path)` and `if (state.path)`. -/
def stPE : PlaybackState :=
  { path := some "", playing := true, position := 3, positionSetAt := 0,
    duration := none }

/-- Room "r" with one member and the empty-string path state. -/
def sigPE : ServerState :=
  { rooms := [("r", [exA])], roomState := [("r", stPE)], avatarCache := [] }

/-- A playing state with a real path, for witnesses. -/
def stG : PlaybackState :=
  { path := some "track1.mp3", playing := true, position := 7,
    positionSetAt := 2000, duration := none }

/-- Memberless server state retaining the playback state of room "r". -/
def sigG : ServerState :=
  { rooms := [], roomState := [("r", stG)], avatarCache := [] }

/-- Room "r" with one member and a playing, truthy-path state. -/
def sigHB : ServerState :=
  { rooms := [("r", [exA])], roomState := [("r", stG)], avatarCache := [] }

/-- A paused playback record (the boolean `false`) with a stale stamp, at
the JavaScript type of the `playing` field. -/
def stCex : JsPlaybackState :=
  { path := some "x", playing := .jbool false, position := 3,
    positionSetAt := 0, duration := none }

/-- A two-hop redirect chain: "a" redirects to "b", "b" redirects to "c",
"c" serves the body. -/
def web2 : String → Option HttpResponse := fun u =>
  if u == "a" then some { statusCode := 301, location := some "b", body := "" }
  else if u == "b" then
    some { statusCode := 302, location := some "c", body := "" }
  else if u == "c" then
    some { statusCode := 200, location := none, body := "C" }
  else none

/-- A redirect cycle: "a" redirects to itself. -/
def webCyc : String → Option HttpResponse := fun u =>
  if u == "a" then some { statusCode := 301, location := some "a", body := "" }
  else none

/-! Helper lemmas about the string and map primitives. -/

theorem headMatches_iff (pat l : List Char) :
    headMatches pat l = true ↔ pat <+: l := by
  induction pat generalizing l with
  | nil => simp [headMatches]
  | cons a as ih =>
    cases l with
    | nil => simp [headMatches]
    | cons b bs =>
      simp [headMatches, List.cons_prefix_cons, ih, Bool.and_eq_true,
        beq_iff_eq, And.comm]

theorem occursIn_iff (pat l : List Char) :
    occursIn pat l = true ↔ pat <:+: l := by
  induction l with
  | nil => simp [occursIn, headMatches_iff]
  | cons c cs ih =>
    simp [occursIn, Bool.or_eq_true, headMatches_iff, ih,
      List.infix_cons_iff]

theorem strIncludes_iff (s pat : String) :
    strIncludes s pat = true ↔ pat.toList <:+: s.toList :=
  occursIn_iff _ _

theorem lookupKey_cons_ne {α : Type} (p : String × α) (ps : List (String × α))
    (k : String) (hp : p.1 ≠ k) : lookupKey (p :: ps) k = lookupKey ps k := by
  have hb : (p.1 == k) = false := by simp [hp]
  simp [lookupKey, List.find?, hb]

theorem insertKey_cons_eq {α : Type} (p : String × α) (ps : List (String × α))
    (k : String) (v : α) (hp : p.1 = k) :
    insertKey (p :: ps) k v =
      (k, v) :: ps.map (fun q => if q.1 == k then (k, v) else q) := by
  unfold insertKey
  simp [List.any_cons, hp]

theorem insertKey_cons_ne {α : Type} (p : String × α) (ps : List (String × α))
    (k : String) (v : α) (hp : p.1 ≠ k) :
    insertKey (p :: ps) k v = p :: insertKey ps k v := by
  unfold insertKey
  by_cases h : ps.any (fun q => q.1 == k) <;>
    simp [List.any_cons, hp, h]

theorem lookupKey_insert {α : Type} (m : List (String × α)) (k : String)
    (v : α) : lookupKey (insertKey m k v) k = some v := by
  induction m with
  | nil => simp [insertKey, lookupKey, List.find?]
  | cons p ps ih =>
    by_cases hp : p.1 = k
    · rw [insertKey_cons_eq p ps k v hp]
      simp [lookupKey, List.find?]
    · rw [insertKey_cons_ne p ps k v hp, lookupKey_cons_ne _ _ _ hp]
      exact ih

theorem lookupKey_erase {α : Type} (m : List (String × α)) (k : String) :
    lookupKey (eraseKey m k) k = none := by
  induction m with
  | nil => simp [lookupKey, eraseKey]
  | cons p ps ih =>
    by_cases h : p.1 = k
    · simpa [eraseKey, h] using ih
    · rw [show eraseKey (p :: ps) k = p :: eraseKey ps k by simp [eraseKey, h],
        lookupKey_cons_ne _ _ _ h]
      exact ih

theorem mapReplace_mapReplace {α : Type} (ps : List (String × α)) (k : String)
    (v w : α) :
    (ps.map (fun q => if q.1 == k then (k, v) else q)).map
        (fun q => if q.1 == k then (k, w) else q) =
      ps.map (fun q => if q.1 == k then (k, w) else q) := by
  rw [List.map_map]
  apply List.map_congr_left
  intro q _
  by_cases hq : q.1 = k <;> simp [hq]

theorem insertKey_insertKey {α : Type} (m : List (String × α)) (k : String)
    (v w : α) : insertKey (insertKey m k v) k w = insertKey m k w := by
  induction m with
  | nil =>
    show insertKey (insertKey [] k v) k w = insertKey [] k w
    unfold insertKey
    simp
  | cons p ps ih =>
    by_cases hp : p.1 = k
    · rw [insertKey_cons_eq p ps k v hp,
        insertKey_cons_eq ((k, v)) _ k w rfl,
        insertKey_cons_eq p ps k w hp, mapReplace_mapReplace]
    · rw [insertKey_cons_ne p ps k v hp, insertKey_cons_ne p _ k w hp,
        insertKey_cons_ne p ps k w hp, ih]

theorem broadcastToRoom_not_found (rooms : List (String × List Session))
    (rid : String) (msg : OutMsg) (ex : Option Nat)
    (hl : lookupKey rooms rid = none) :
    broadcastToRoom rooms rid msg ex = (0, []) := by
  simp only [broadcastToRoom, hl]

theorem broadcastToRoom_found (rooms : List (String × List Session))
    (rid : String) (msg : OutMsg) (ex : Option Nat) (cs : List Session)
    (hl : lookupKey rooms rid = some cs) (hz : (cs.length == 0) = false) :
    broadcastToRoom rooms rid msg ex =
      ((cs.filter (fun c => (!(some c.sid == ex)) && c.readyState == 1)).length,
        (cs.filter (fun c => (!(some c.sid == ex)) && c.readyState == 1)).map
          (fun c => { target := c.sid, payload := serialize msg })) := by
  simp only [broadcastToRoom, hl, hz, Bool.false_eq_true, if_false]

theorem cleanupClient_noRoom (ws : Session) (σ : ServerState)
    (hw : ws.roomId = none) : cleanupClient ws σ = (σ, []) := by
  simp only [cleanupClient, hw]

theorem cleanupClient_unknown (ws : Session) (σ : ServerState) (rid : String)
    (hw : ws.roomId = some rid) (hl : lookupKey σ.rooms rid = none) :
    cleanupClient ws σ = (σ, []) := by
  simp only [cleanupClient, hw, hl]

theorem cleanupClient_found (ws : Session) (σ : ServerState) (rid : String)
    (cs : List Session) (hw : ws.roomId = some rid)
    (hl : lookupKey σ.rooms rid = some cs) :
    cleanupClient ws σ =
      ({ σ with rooms :=
          if ((cs.filter (fun c => c.sid != ws.sid)).length == 0) = true
          then eraseKey σ.rooms rid
          else insertKey σ.rooms rid (cs.filter (fun c => c.sid != ws.sid)) },
        (broadcastToRoom
          (if ((cs.filter (fun c => c.sid != ws.sid)).length == 0) = true
           then eraseKey σ.rooms rid
           else insertKey σ.rooms rid (cs.filter (fun c => c.sid != ws.sid)))
          rid (.clientLeft ws.clientId) none).2) := by
  simp only [cleanupClient, hw, hl]

theorem filter_sid_idem (cs : List Session) (n : Nat) :
    (cs.filter (fun c => c.sid != n)).filter (fun c => c.sid != n) =
      cs.filter (fun c => c.sid != n) :=
  List.filter_eq_self.mpr (fun _ ha => (List.mem_filter.mp ha).2)

theorem cleanupClient_roomState (ws : Session) (σ : ServerState) :
    (cleanupClient ws σ).1.roomState = σ.roomState := by
  cases hw : ws.roomId with
  | none => rw [cleanupClient_noRoom ws σ hw]
  | some rid =>
    cases hl : lookupKey σ.rooms rid with
    | none => rw [cleanupClient_unknown ws σ rid hw hl]
    | some cs => rw [cleanupClient_found ws σ rid cs hw hl]

/-! Claim theorems. -/

/-- C1 counterexample: with alice and bob both in room "r", a second
`cleanupClient` for alice (simulating racing close and error events)
broadcasts `client_left` to bob a second time, although the second removal
did not change the room's membership set — refuting the claim that a
second invocation never broadcasts a second `client_left` and that the
broadcast happens only when removal changed membership. -/
theorem claim_C1_counterexample :
    (cleanupClient exA sigAB).2 =
        [{ target := 1, payload := serialize (.clientLeft "alice") }] ∧
      (cleanupClient exA (cleanupClient exA sigAB).1).1.rooms =
        (cleanupClient exA sigAB).1.rooms ∧
      (cleanupClient exA (cleanupClient exA sigAB).1).2 =
        [{ target := 1, payload := serialize (.clientLeft "alice") }] :=
  ⟨rfl, rfl, rfl⟩

/-- C1 (amended): the disconnect-cleanup operation never throws (it is a
total function) and is idempotent on membership: a second invocation
leaves the rooms map exactly as the first left it, and never touches the
playback-state map.  When the session was the room's last member the
second invocation is a complete no-op; but when the room still has an
open remaining member, the second invocation broadcasts `client_left`
again — the broadcast is keyed on the room entry existing, not on the
removal having changed membership. -/
theorem claim_C1 (ws : Session) (σ : ServerState) :
    ((cleanupClient ws (cleanupClient ws σ).1).1.rooms =
        (cleanupClient ws σ).1.rooms) ∧
      ((cleanupClient ws (cleanupClient ws σ).1).1.roomState = σ.roomState) ∧
      (∀ rid, ws.roomId = some rid →
        lookupKey (cleanupClient ws σ).1.rooms rid = none →
        cleanupClient ws (cleanupClient ws σ).1 = ((cleanupClient ws σ).1, [])) ∧
      (∀ rid cs, ws.roomId = some rid →
        lookupKey (cleanupClient ws σ).1.rooms rid = some cs →
        (∃ c, c ∈ cs ∧ c.readyState = 1 ∧ c.sid ≠ ws.sid) →
        (cleanupClient ws (cleanupClient ws σ).1).2 ≠ []) := by
  have hrooms : (cleanupClient ws (cleanupClient ws σ).1).1.rooms =
      (cleanupClient ws σ).1.rooms := by
    cases hw : ws.roomId with
    | none => rw [cleanupClient_noRoom ws σ hw, cleanupClient_noRoom ws σ hw]
    | some rid =>
      cases hl : lookupKey σ.rooms rid with
      | none =>
        rw [cleanupClient_unknown ws σ rid hw hl,
          cleanupClient_unknown ws σ rid hw hl]
      | some cs =>
        rw [cleanupClient_found ws σ rid cs hw hl]
        by_cases hz :
            ((cs.filter (fun c => c.sid != ws.sid)).length == 0) = true
        · simp only [hz, if_true]
          rw [cleanupClient_unknown ws _ rid hw (lookupKey_erase σ.rooms rid)]
        · simp only [hz, if_false]
          rw [cleanupClient_found ws _ rid
            (cs.filter (fun c => c.sid != ws.sid)) hw (lookupKey_insert _ _ _)]
          simp only [filter_sid_idem, hz, if_false]
          exact insertKey_insertKey σ.rooms rid _ _
  refine ⟨hrooms, ?_, ?_, ?_⟩
  · rw [cleanupClient_roomState, cleanupClient_roomState]
  · intro rid hw hnone
    exact cleanupClient_unknown ws _ rid hw hnone
  · intro rid cs hw hsome hex
    rcases hex with ⟨c, hc, hopen, hne⟩
    have hfilt : c ∈ cs.filter (fun x => x.sid != ws.sid) :=
      List.mem_filter.mpr ⟨hc, by simp [hne]⟩
    have hzc : ((cs.filter (fun x => x.sid != ws.sid)).length == 0) = false := by
      have hp := List.length_pos.mpr (List.ne_nil_of_mem hfilt)
      simp [Nat.pos_iff_ne_zero.mp hp]
    rw [cleanupClient_found ws _ rid cs hw hsome]
    simp only [hzc, Bool.false_eq_true, if_false]
    rw [broadcastToRoom_found _ rid _ none (cs.filter (fun x => x.sid != ws.sid))
      (lookupKey_insert _ _ _) hzc]
    intro habs
    have hmem : c ∈ (cs.filter (fun x => x.sid != ws.sid)).filter
        (fun x => (!(some x.sid == (none : Option Nat))) && x.readyState == 1) :=
      List.mem_filter.mpr ⟨hfilt, by simp [hopen]⟩
    rw [List.map_eq_nil_iff] at habs
    rw [habs] at hmem
    exact List.not_mem_nil c hmem

/-- C1 witness: the amended theorem applied to alice leaving the two-member
room "r". -/
theorem claim_C1_witness :
    ((cleanupClient exA (cleanupClient exA sigAB).1).1.rooms =
        (cleanupClient exA sigAB).1.rooms) ∧
      (cleanupClient exA (cleanupClient exA sigAB).1).2 ≠ [] :=
  ⟨(claim_C1 exA sigAB).1,
    (claim_C1 exA sigAB).2.2.2 "r" [exB] rfl rfl ⟨exB, by decide⟩⟩

/-- C4: the effective position (`currentPosition`, timestamps in
milliseconds) equals the stored `position` plus the elapsed seconds
`(T - positionSetAt)/1000` when `playing` is true, and exactly the stored
`position` when `playing` is false; and over `d` elapsed seconds
(`1000 * d` milliseconds) with no intervening mutation and `playing = true`
the effective position grows by exactly `d`. -/
theorem claim_C4 (st : PlaybackState) (t d : ℚ) :
    (st.playing = true →
      currentPosition st t = st.position + (t - st.positionSetAt) / 1000) ∧
    (st.playing = false → currentPosition st t = st.position) ∧
    (st.playing = true →
      currentPosition st (t + 1000 * d) - currentPosition st t = d) := by
  refine ⟨fun h => by simp [currentPosition, h],
    fun h => by simp [currentPosition, h], fun h => ?_⟩
  simp [currentPosition, h]
  ring

/-- C4 witness: a playing state observed 5 seconds apart advances by
exactly 5. -/
theorem claim_C4_witness :
    currentPosition stG (2000 + 1000 * 5) - currentPosition stG 2000 = 5 :=
  (claim_C4 stG 2000 5).2.2 rfl

/-- C9: snapshot is idempotent when no time elapses — a repeated
`snapshotPosition` with the same current time returns the state of the
first call unchanged (in particular `position` is unchanged). -/
theorem claim_C9 (st : PlaybackState) (now : ℚ) :
    snapshotPosition (snapshotPosition st now) now = snapshotPosition st now := by
  cases h : st.playing <;>
    simp [snapshotPosition, currentPosition, h]

/-- C2 counterexample: (i) the href "PAUSE" contains "pause"
case-insensitively yet infers a falsy playing value — the source checks
only the exact substrings "pause" and "Pause"; (ii) with href `""` the
inferred truthiness (false) equals the current playing flag (false), yet
the branch still fires, because the strict `!==` compares the boolean
`false` with the string `""`: the state is snapshotted (`positionSetAt`
re-stamped to now) and the non-boolean `""` stored — refuting
"snapshot-then-flipped only when the inferred value differs". -/
theorem claim_C2_counterexample :
    (jsTruthy (wantPlayOf (some "PAUSE")) = false ∧
      includesCaseInsensitive "PAUSE" "pause" = true) ∧
    (jsTruthy (wantPlayOf (some "")) = jsTruthy stCex.playing ∧
      handlePlaystate stCex (some "") 5000 ≠ stCex ∧
      (handlePlaystate stCex (some "") 5000).positionSetAt = 5000 ∧
      (handlePlaystate stCex (some "") 5000).playing = .jstr0) := by
  decide

/-- C2 (amended): `wantPlay` is the JS value `msg.href && (includes
"pause" || includes "Pause")`: `undefined` when href is absent, `""` when
href is empty, else a boolean that is truthy exactly when href contains
the exact substring "pause" or "Pause" (other casings such as "PAUSE" do
not match).  The branch snapshots and assigns `wantPlay` exactly when the
stored playing value differs from it under strict `!==` comparison: for a
nonempty href and a stored boolean that is exactly when the inferred
boolean differs from the current one, but an absent or empty href always
differs strictly from a stored boolean, so the branch then snapshots
(re-stamping `positionSetAt`) and stores the falsy non-boolean. -/
theorem claim_C2 (st : JsPlaybackState) (href : Option String) (h : String)
    (now : ℚ) :
    (wantPlayOf none = .jundef ∧ wantPlayOf (some "") = .jstr0 ∧
      (jsTruthy (wantPlayOf (some h)) = true ↔
        ("pause".toList <:+: h.toList ∨ "Pause".toList <:+: h.toList))) ∧
    (st.playing = wantPlayOf href → handlePlaystate st href now = st) ∧
    (st.playing ≠ wantPlayOf href →
      handlePlaystate st href now =
        { snapshotPositionJs st now with playing := wantPlayOf href }) ∧
    (∀ b : Bool, st.playing = .jbool b → ¬(h = "") →
      (handlePlaystate st (some h) now = st ↔
        (strIncludes h "pause" || strIncludes h "Pause") = b)) := by
  have hwp : ∀ s : String, ¬(s = "") → wantPlayOf (some s) =
      .jbool (strIncludes s "pause" || strIncludes s "Pause") := by
    intro s hs
    simp [wantPlayOf, hs]
  have htr : jsTruthy (wantPlayOf (some h)) = true ↔
      ("pause".toList <:+: h.toList ∨ "Pause".toList <:+: h.toList) := by
    by_cases he : h = ""
    · subst he
      simp [wantPlayOf, jsTruthy]
    · rw [hwp h he]
      simp [jsTruthy, strIncludes_iff, Bool.or_eq_true]
  have heqG : ∀ hr, st.playing = wantPlayOf hr →
      handlePlaystate st hr now = st := by
    intro hr hw
    simp [handlePlaystate, hw]
  have hneG : ∀ hr, st.playing ≠ wantPlayOf hr →
      handlePlaystate st hr now =
        { snapshotPositionJs st now with playing := wantPlayOf hr } := by
    intro hr hw
    simp [handlePlaystate, hw]
  refine ⟨⟨rfl, rfl, htr⟩, heqG href, hneG href, ?_⟩
  intro b hb hs
  by_cases hcb : (strIncludes h "pause" || strIncludes h "Pause") = b
  · constructor
    · intro _
      exact hcb
    · intro _
      exact heqG (some h) (by rw [hb, hwp h hs, hcb])
  · have hnePlay : st.playing ≠ wantPlayOf (some h) := by
      rw [hb, hwp h hs]
      intro hx
      exact hcb (JsPlaying.jbool.inj hx).symm
    have hres := hneG (some h) hnePlay
    constructor
    · intro hcontra
      rw [hres] at hcontra
      have hpl : ({ snapshotPositionJs st now with
          playing := wantPlayOf (some h) } : JsPlaybackState).playing =
          st.playing := by rw [hcontra]
      rw [hb, hwp h hs] at hpl
      exact JsPlaying.jbool.inj hpl
    · intro hcontra
      exact absurd hcontra hcb

/-- C2 witness: the amended theorem applied to a paused (boolean false)
default state and href "pause": strict comparison fires, the handler
snapshots and stores the boolean true. -/
theorem claim_C2_witness :
    handlePlaystate (toJsState (defaultState 0)) (some "pause") 5 =
      { snapshotPositionJs (toJsState (defaultState 0)) 5 with
        playing := .jbool true } := by
  have hc := (claim_C2 (toJsState (defaultState 0)) (some "pause") "pause"
    5).2.2.1 (by decide)
  rw [hc]
  decide

/-- C3: `fetchUrl` does not stop after one redirect hop.  On the two-hop
chain a → b → c it returns c's body (the redirect response b was itself
followed), and on the redirect cycle a → a the fetch never settles at any
recursion depth (the promise neither resolves nor rejects), contradicting
the claim that at most one hop is followed and that the fetch terminates
on a cycle. -/
theorem claim_C3 :
    fetchUrl web2 3 "a" = some (.ok "C") ∧
      (∀ fuel, fetchUrl webCyc fuel "a" = none) := by
  refine ⟨by decide, ?_⟩
  intro fuel
  induction fuel with
  | zero => rfl
  | succ n ih =>
    have hstep : fetchUrl webCyc (n + 1) "a" = fetchUrl webCyc n "a" := rfl
    rw [hstep, ih]

/-- The `navigate` branch written as an explicit state/broadcast pair. -/
theorem handleNavigate_eq (σ : ServerState) (roomId clientId : String)
    (msgPath : Option String) (now : ℚ) :
    handleNavigate σ roomId clientId msgPath now =
      (navServerState σ roomId msgPath now,
       (broadcastStateSync (navServerState σ roomId msgPath now)
         roomId clientId now).2) := rfl

/-- C5: after a `navigate` message the room's stored state has the
message's path, position 0, `positionSetAt = now` and `playing = true`,
and the broadcast delivers the serialized `state_sync` (path, playing,
position 0, server time, `by` = sender client id) to every open member of
the room — the sender not excluded: every open member's delivery is in
the send list. -/
theorem claim_C5 (σ : ServerState) (roomId clientId : String)
    (msgPath : Option String) (now : ℚ) :
    (∃ st, lookupKey (handleNavigate σ roomId clientId msgPath now).1.roomState
        roomId = some st ∧
      st.path = msgPath ∧ st.position = 0 ∧ st.positionSetAt = now ∧
      st.playing = true) ∧
    (∀ cs, lookupKey σ.rooms roomId = some cs → (cs.length == 0) = false →
      (handleNavigate σ roomId clientId msgPath now).2 =
        (cs.filter (fun c => c.readyState == 1)).map
          (fun c =>
            Delivery.mk c.sid
              (serialize (.stateSync msgPath true 0 now clientId))) ∧
      ∀ c, c ∈ cs → c.readyState = 1 →
        Delivery.mk c.sid
            (serialize (.stateSync msgPath true 0 now clientId)) ∈
          (handleNavigate σ roomId clientId msgPath now).2) := by
  rw [handleNavigate_eq]
  have hlk : lookupKey (insertKey σ.roomState roomId
      (navState σ roomId msgPath now)) roomId =
      some (navState σ roomId msgPath now) :=
    lookupKey_insert _ _ _
  have hcp : currentPosition (navState σ roomId msgPath now) now = 0 := by
    simp [currentPosition, navState]
  have hsync : broadcastStateSync (navServerState σ roomId msgPath now)
      roomId clientId now =
      broadcastToRoom σ.rooms roomId
        (.stateSync msgPath true 0 now clientId) none := by
    simp only [broadcastStateSync, broadcastAll, getRoomState, navServerState,
      hlk, Option.getD_some, stateSyncMsg, hcp]
    rfl
  constructor
  · exact ⟨navState σ roomId msgPath now, hlk, rfl, rfl, rfl, rfl⟩
  · intro cs hcs hz
    have hfc : cs.filter
        (fun c => (!(some c.sid == (none : Option Nat))) && c.readyState == 1) =
        cs.filter (fun c => c.readyState == 1) :=
      List.filter_congr (fun c _ => by simp)
    have hbr := broadcastToRoom_found σ.rooms roomId
      (.stateSync msgPath true 0 now clientId) none cs hcs hz
    constructor
    · show (broadcastStateSync _ roomId clientId now).2 = _
      rw [hsync, hbr, hfc]
    · intro c hc hr
      show _ ∈ (broadcastStateSync _ roomId clientId now).2
      rw [hsync, hbr, hfc]
      exact List.mem_map.mpr
        ⟨c, List.mem_filter.mpr ⟨hc, by simp [hr]⟩, rfl⟩

/-- C5 witness: alice navigating in room "r" (members alice, bob, both
open) yields deliveries to both members, sender included. -/
theorem claim_C5_witness :
    (handleNavigate sigAB "r" "alice" (some "track1.mp3") 1000).2 =
      [Delivery.mk 0
        (serialize (.stateSync (some "track1.mp3") true 0 1000 "alice")),
       Delivery.mk 1
        (serialize (.stateSync (some "track1.mp3") true 0 1000 "alice"))] := by
  have h := ((claim_C5 sigAB "r" "alice" (some "track1.mp3") 1000).2
    [exA, exB] rfl rfl).1
  exact h.trans (by decide)

/-- C6: broadcast returns 0 with no sends when the room is unknown or has
no members; otherwise each delivery carries the one serialized wire form,
a delivery exists exactly for each member other than the excluded session
whose connection is open (readyState 1), the returned count equals the
number of sends, and in the concrete room {A, B, C} excluding A the
targets are exactly B and C. -/
theorem claim_C6 (rooms : List (String × List Session)) (roomId : String)
    (msgObj : OutMsg) (exclude : Option Nat) :
    (lookupKey rooms roomId = none →
      broadcastToRoom rooms roomId msgObj exclude = (0, [])) ∧
    (lookupKey rooms roomId = some [] →
      broadcastToRoom rooms roomId msgObj exclude = (0, [])) ∧
    (∀ cs, lookupKey rooms roomId = some cs →
      ((∀ d, d ∈ (broadcastToRoom rooms roomId msgObj exclude).2 ↔
        ∃ c, c ∈ cs ∧ some c.sid ≠ exclude ∧ c.readyState = 1 ∧
          d = Delivery.mk c.sid (serialize msgObj)) ∧
      (broadcastToRoom rooms roomId msgObj exclude).1 =
        (broadcastToRoom rooms roomId msgObj exclude).2.length)) ∧
    ((broadcastToRoom [("x", [exA, exB, exC])] "x" msgObj (some exA.sid)).2.map
        (fun d => d.target) = [1, 2]) := by
  refine ⟨fun h => broadcastToRoom_not_found rooms roomId msgObj exclude h,
    fun h => by simp [broadcastToRoom, h], ?_, ?_⟩
  · intro cs hcs
    by_cases hnil : cs = []
    · subst hnil
      constructor
      · intro d
        simp [broadcastToRoom, hcs]
      · simp [broadcastToRoom, hcs]
    · have hz : (cs.length == 0) = false := by
        have hp := List.length_pos.mpr hnil
        simp [Nat.pos_iff_ne_zero.mp hp]
      rw [broadcastToRoom_found rooms roomId msgObj exclude cs hcs hz]
      constructor
      · intro d
        simp only [List.mem_map, List.mem_filter, Bool.and_eq_true,
          Bool.not_eq_true', beq_eq_false_iff_ne, beq_iff_eq]
        constructor
        · rintro ⟨c, ⟨hc, hex, hr⟩, hd⟩
          exact ⟨c, hc, hex, hr, hd.symm⟩
        · rintro ⟨c, hc, hex, hr, hd⟩
          exact ⟨c, ⟨hc, hex, hr⟩, hd.symm⟩
      · simp [List.length_map]
  · rfl

/-- C6 witness: in room "x" with the three open members and A excluded,
the count equals the number of sends, and an unknown room broadcasts
nothing. -/
theorem claim_C6_witness :
    ((broadcastToRoom [("x", [exA, exB, exC])] "x" (.clientLeft "z")
        (some 0)).1 =
      (broadcastToRoom [("x", [exA, exB, exC])] "x" (.clientLeft "z")
        (some 0)).2.length) ∧
    broadcastToRoom [] "x" (.clientLeft "z") none = (0, []) :=
  ⟨((claim_C6 [("x", [exA, exB, exC])] "x" (.clientLeft "z") (some 0)).2.2.1
      [exA, exB, exC] rfl).2,
    (claim_C6 [] "x" (.clientLeft "z") none).1 rfl⟩

/-- C7: a connection whose room query parameter is absent (or the falsy
empty string) or whose room fails the validity check is rejected with
close code 4001 and reason "Room not found", and the server state is
returned unchanged — no membership entry is created and no playback state
is mutated. -/
theorem claim_C7 (σ : ServerState) (validRooms : List String)
    (serverName : Option String) (roomQ clientQ : Option String) (sid : Nat)
    (now : ℚ)
    (h : roomQ = none ∨
      ∃ rid, roomQ = some rid ∧ validRooms.contains rid = false) :
    handleConnection σ validRooms serverName roomQ clientQ sid now =
      (σ, .rejected 4001 "Room not found") := by
  rcases h with h | ⟨rid, hq, hc⟩
  · subst h
    simp [handleConnection, strOpt]
  · subst hq
    by_cases hrid : rid = ""
    · subst hrid
      simp [handleConnection, strOpt]
    · simp only [handleConnection, strOpt]
      have hb : (rid == "") = false := by simp [hrid]
      have hm : rid ∉ validRooms := by simpa using hc
      simp [hb, hm]

/-- C7 witness: connecting with room "nonexistent" against the allow-list
["public"] is rejected with 4001 and the state is untouched. -/
theorem claim_C7_witness :
    handleConnection sigEmpty ["public"] none (some "nonexistent") none 0 0 =
      (sigEmpty, .rejected 4001 "Room not found") :=
  claim_C7 sigEmpty ["public"] none (some "nonexistent") none 0 0
    (Or.inr ⟨"nonexistent", rfl, by decide⟩)

/-- Membership characterization of the heartbeat loop body over any list
of rooms-map entries. -/
theorem heartbeatTickFrom_mem (σ : ServerState) (now : ℚ) (rid : String)
    (ds : List Delivery) (l : List (String × List Session)) :
    (rid, ds) ∈ heartbeatTickFrom σ now l ↔
      ∃ cs, (rid, cs) ∈ l ∧ (cs.length == 0) = false ∧
        pathTruthy (getRoomState σ.roomState rid now).path = true ∧
        ds = (broadcastStateSync σ rid "heartbeat" now).2 := by
  induction l with
  | nil => simp [heartbeatTickFrom]
  | cons p ps ih =>
    by_cases hz : (p.2.length == 0) = true
    · simp only [heartbeatTickFrom, hz, if_true]
      rw [ih]
      constructor
      · rintro ⟨cs, hmem, hcs, hp, hd⟩
        exact ⟨cs, List.mem_cons_of_mem _ hmem, hcs, hp, hd⟩
      · rintro ⟨cs, hmem, hcs, hp, hd⟩
        rcases List.mem_cons.mp hmem with he | hm
        · have h2 : p.2 = cs := by rw [← he]
          rw [h2] at hz
          rw [hz] at hcs
          cases hcs
        · exact ⟨cs, hm, hcs, hp, hd⟩
    · have hzf : (p.2.length == 0) = false := Bool.eq_false_iff.mpr hz
      by_cases hp : pathTruthy (getRoomState σ.roomState p.1 now).path = true
      · simp only [heartbeatTickFrom, hzf, Bool.false_eq_true, if_false, hp,
          if_true]
        constructor
        · intro hmem
          rcases List.mem_cons.mp hmem with he | hm
          · have h1 : rid = p.1 := congrArg Prod.fst he
            have h2 : ds = (broadcastStateSync σ p.1 "heartbeat" now).2 :=
              congrArg Prod.snd he
            refine ⟨p.2, ?_, hzf, ?_, ?_⟩
            · rw [h1]
              exact List.mem_cons_self _ _
            · rw [h1]; exact hp
            · rw [h1]; exact h2
          · exact (ih.mp hm).elim (fun cs hcs => ⟨cs,
              List.mem_cons_of_mem _ hcs.1, hcs.2.1, hcs.2.2.1, hcs.2.2.2⟩)
        · rintro ⟨cs, hmem, hcs, hpp, hd⟩
          rcases List.mem_cons.mp hmem with he | hm
          · have h1 : rid = p.1 := congrArg Prod.fst he
            subst h1
            rw [hd]
            exact List.mem_cons_self _ _
          · right
            exact ih.mpr ⟨cs, hm, hcs, hpp, hd⟩
      · simp only [heartbeatTickFrom, hzf, Bool.false_eq_true, if_false, hp]
        rw [ih]
        constructor
        · rintro ⟨cs, hmem, hcs, hpp, hd⟩
          exact ⟨cs, List.mem_cons_of_mem _ hmem, hcs, hpp, hd⟩
        · rintro ⟨cs, hmem, hcs, hpp, hd⟩
          rcases List.mem_cons.mp hmem with he | hm
          · have h1 : rid = p.1 := congrArg Prod.fst he
            rw [h1] at hpp
            exact absurd hpp hp
          · exact ⟨cs, hm, hcs, hpp, hd⟩

/-- C8 (amended): a heartbeat tick broadcasts a `state_sync` with
originator "heartbeat" for exactly those rooms that have at least one
member and a truthy path — non-null and non-empty; in particular no
heartbeat is ever sent for a room with a null path or with no members. -/
theorem claim_C8 (σ : ServerState) (now : ℚ) (rid : String)
    (ds : List Delivery) :
    (rid, ds) ∈ heartbeatTick σ now ↔
      ∃ cs, (rid, cs) ∈ σ.rooms ∧ cs ≠ [] ∧
        pathTruthy (getRoomState σ.roomState rid now).path = true ∧
        ds = (broadcastStateSync σ rid "heartbeat" now).2 := by
  rw [heartbeatTick, heartbeatTickFrom_mem]
  have hlen : ∀ cs : List Session, ((cs.length == 0) = false) ↔ cs ≠ [] := by
    intro cs
    rw [Bool.eq_false_iff]
    simp [List.length_eq_zero]
  constructor
  · rintro ⟨cs, hmem, hcs, hp, hd⟩
    exact ⟨cs, hmem, (hlen cs).mp hcs, hp, hd⟩
  · rintro ⟨cs, hmem, hcs, hp, hd⟩
    exact ⟨cs, hmem, (hlen cs).mpr hcs, hp, hd⟩

/-- C8 counterexample: room "r" has one member and the non-null path
`some ""`, yet the heartbeat tick broadcasts nothing — the JS test
`if (!state.path)` also skips the empty string, refuting "exactly those
rooms with at least one member and a non-null path". -/
theorem claim_C8_counterexample :
    lookupKey sigPE.rooms "r" = some [exA] ∧
      (getRoomState sigPE.roomState "r" 1000).path = some "" ∧
      some "" ≠ (none : Option String) ∧
      heartbeatTick sigPE 1000 = [] :=
  ⟨rfl, rfl, by decide, rfl⟩

/-- C8 witness: a room with one member and a real path does receive its
heartbeat `state_sync`. -/
theorem claim_C8_witness :
    ("r", (broadcastStateSync sigHB "r" "heartbeat" 1000).2) ∈
      heartbeatTick sigHB 1000 :=
  (claim_C8 sigHB 1000 "r" _).mpr
    ⟨[exA], by decide, by decide, rfl, rfl⟩

/-- C10 (amended): disconnect cleanup never touches the playback-state map
(or the avatar cache) — only the membership entry — so state fields
survive a room becoming empty; and a later joiner of a room whose
retained path is truthy (non-null and non-empty) is admitted and receives
the `state_sync` bootstrap computed from the retained state, which itself
remains stored unchanged. -/
theorem claim_C10 (ws : Session) (σ : ServerState) (validRooms : List String)
    (serverName : Option String) (rid : String) (st : PlaybackState)
    (clientQ : Option String) (sid : Nat) (now : ℚ) :
    ((cleanupClient ws σ).1.roomState = σ.roomState) ∧
    ((cleanupClient ws σ).1.avatarCache = σ.avatarCache) ∧
    (lookupKey σ.roomState rid = some st → validRooms.contains rid = true →
      (rid == "") = false → pathTruthy st.path = true →
      ∃ ws1 jb ts σ1,
        handleConnection σ validRooms serverName (some rid) clientQ sid now =
          (σ1, .admitted ws1 jb ts) ∧
        serialize (.stateSync st.path st.playing (currentPosition st now) now
          "server") ∈ ts ∧
        σ1.roomState = σ.roomState) := by
  have hcache : (cleanupClient ws σ).1.avatarCache = σ.avatarCache := by
    cases hw : ws.roomId with
    | none => rw [cleanupClient_noRoom ws σ hw]
    | some r =>
      cases hl : lookupKey σ.rooms r with
      | none => rw [cleanupClient_unknown ws σ r hw hl]
      | some cs => rw [cleanupClient_found ws σ r cs hw hl]
  refine ⟨cleanupClient_roomState ws σ, hcache, ?_⟩
  intro hlk hvr hne hpt
  unfold handleConnection
  simp only [strOpt, hne, Bool.false_eq_true, if_false, getRoomState, hlk,
    Option.getD_some, hvr, Bool.not_true, hpt, if_true]
  refine ⟨_, _, _, _, rfl, ?_, ?_⟩
  · exact List.mem_cons_of_mem _
      (List.mem_append_right _ (List.mem_singleton.mpr rfl))
  · simp [ensureRoomState, hlk]

/-- C10 counterexample: after alice (the sole member) disconnects, the
retained state of room "r" has the non-null path `some ""`; bob then
joins and receives only `server_info` — no `state_sync` bootstrap,
because the JS test `if (state.path)` is false for the empty string. -/
theorem claim_C10_counterexample :
    (cleanupClient exA sigPE).1.roomState = sigPE.roomState ∧
      lookupKey (cleanupClient exA sigPE).1.roomState "r" = some stPE ∧
      stPE.path ≠ none ∧
      (handleConnection (cleanupClient exA sigPE).1 ["r"] none (some "r")
        (some "bob") 1 1000).2 =
        .admitted (Session.mk 1 (some "r") "bob" 1 none) []
          [serialize (.serverInfo none)] :=
  ⟨rfl, rfl, by decide, rfl⟩

/-- C10 witness: a joiner of the memberless room "r", whose retained state
has path "track1.mp3", receives the `state_sync` bootstrap computed from
the retained state. -/
theorem claim_C10_witness :
    ∃ ws1 jb ts σ1,
      handleConnection sigG ["r"] none (some "r") (some "bob") 1 3000 =
        (σ1, .admitted ws1 jb ts) ∧
      serialize (.stateSync stG.path stG.playing (currentPosition stG 3000)
        3000 "server") ∈ ts ∧
      σ1.roomState = sigG.roomState :=
  (claim_C10 exA sigG ["r"] none "r" stG (some "bob") 1 3000).2.2 rfl
    (by decide) (by decide) rfl

end ListenAlong
